import Mathlib

/-!
Verification of the business-lookup-tool core: a shallow embedding of the
data model (`src/models.py`), the data normalizer (`src/data_normalizer.py`),
the similarity scorer (`src/similarity_scorer.py`) and the logistics
optimizer (`src/logistics_optimizer.py`), together with theorems settling
the specification claims about them.

Python floats are modelled as rationals (ℚ); Python strings as Lean
strings, with the handful of Python string primitives the code uses
re-implemented structurally over the character list so that concrete
evaluations reduce.  `np.log10` (used only inside the size sub-score) is
kept as an explicit function parameter, since none of the verified
properties depend on its exact values.
-/

namespace BusinessLookup

/-! ## Python string primitives -/

/-- Python `str.lower()` (ASCII behaviour of `Char.toLower`). -/
def pyLower (s : String) : String := ⟨s.data.map Char.toLower⟩

/-- Python `str.upper()` (ASCII behaviour of `Char.toUpper`). -/
def pyUpper (s : String) : String := ⟨s.data.map Char.toUpper⟩

/-- Remove leading and trailing whitespace from a character list. -/
def stripList (l : List Char) : List Char :=
  ((l.dropWhile Char.isWhitespace).reverse.dropWhile Char.isWhitespace).reverse

/-- Python `str.strip()` with no argument: trim whitespace on both ends. -/
def pyStrip (s : String) : String := ⟨stripList s.data⟩

/-- Does `pre` lead the list `l`?  (Python `str.startswith` on lists.) -/
def leadsWith : List Char → List Char → Bool
  | [], _ => true
  | _ :: _, [] => false
  | a :: as, b :: bs => a == b && leadsWith as bs

/-- Python `needle in hay` for strings, on character lists:
`true` iff `needle` occurs contiguously inside `hay` (the empty needle
always matches). -/
def containsSubList (needle : List Char) : List Char → Bool
  | [] => needle.isEmpty
  | b :: bs => leadsWith needle (b :: bs) || containsSubList needle bs

/-- Python `needle in hay` on strings. -/
def strContainsSub (hay needle : String) : Bool :=
  containsSubList needle.data hay.data

/-- Python `c in s` for a single character. -/
def strContainsChar (s : String) (c : Char) : Bool := s.data.contains c

/-- Python `s.replace(str(c), "")`: drop every occurrence of character `c`. -/
def pyRemoveChar (s : String) (c : Char) : String := ⟨s.data.filter (· ≠ c)⟩

/-- Split a character list on a separator character; mirrors Python
`str.split(sep)` for a one-character separator (so `"a--b"` yields
`["a", "", "b"]` and `""` yields `[""]`). -/
def splitOnCharList (c : Char) : List Char → List (List Char)
  | [] => [[]]
  | x :: xs =>
    let r := splitOnCharList c xs
    if x = c then [] :: r
    else
      match r with
      | h :: t => (x :: h) :: t
      | [] => [[x]]

/-- Python `s.split(sep)` for a one-character separator. -/
def pySplit (s : String) (c : Char) : List String :=
  (splitOnCharList c s.data).map (fun l => ⟨l⟩)

/-- Python `s.endswith(suffix)` for a one-character suffix. -/
def pyEndsWithChar (s : String) (c : Char) : Bool :=
  match s.data.getLast? with
  | some x => x == c
  | none => false

/-- Drop the final character of a string (Python `s[:-1]` on a nonempty
string). -/
def pyDropLast (s : String) : String := ⟨s.data.dropLast⟩

/-- Python `s[:n]`. -/
def pyTake (s : String) (n : Nat) : String := ⟨s.data.take n⟩

/-- The numeric value of a list of decimal digit characters. -/
def digitsVal (l : List Char) : Nat :=
  l.foldl (fun acc c => acc * 10 + (c.toNat - 48)) 0

/-- Python `int(s)`, modelled for its use sites: optional surrounding
whitespace, an optional sign, then decimal digits; anything else raises
`ValueError`, modelled as `none`. -/
def pyInt (s : String) : Option Int :=
  let t := stripList s.data
  match t with
  | '+' :: r => if r ≠ [] ∧ r.all Char.isDigit then some (digitsVal r : Nat) else none
  | '-' :: r => if r ≠ [] ∧ r.all Char.isDigit then some (-(digitsVal r : Nat) : Int) else none
  | r => if r ≠ [] ∧ r.all Char.isDigit then some (digitsVal r : Nat) else none

/-- Exponent part of a float literal: optional sign then digits. -/
def pyFloatExp (l : List Char) : Option Int :=
  match l with
  | '+' :: r => if r ≠ [] ∧ r.all Char.isDigit then some (digitsVal r : Nat) else none
  | '-' :: r => if r ≠ [] ∧ r.all Char.isDigit then some (-(digitsVal r : Nat) : Int) else none
  | r => if r ≠ [] ∧ r.all Char.isDigit then some (digitsVal r : Nat) else none

/-- The discrete outcome of parsing a float literal: sign, integer-part
value, fractional-part value and digit count, and decimal exponent. -/
structure FloatParts where
  sign : Int
  intVal : Nat
  fracVal : Nat
  fracLen : Nat
  exp : Int
deriving DecidableEq, Repr

/-- Parsing phase of Python `float(s)`: optional surrounding whitespace,
optional sign, integer digits, optional fractional digits after a point,
optional decimal exponent.  Unparsable input (which in Python raises
`ValueError`) is `none`. -/
def pyFloatParts (s : String) : Option FloatParts :=
  let t := stripList s.data
  let signAndRest : Int × List Char :=
    match t with
    | '+' :: r => (1, r)
    | '-' :: r => (-1, r)
    | r => (1, r)
  let sign := signAndRest.1
  let r1 := signAndRest.2
  let intPart := r1.takeWhile Char.isDigit
  let r2 := r1.dropWhile Char.isDigit
  let fracAndRest : List Char × List Char :=
    match r2 with
    | '.' :: r => (r.takeWhile Char.isDigit, r.dropWhile Char.isDigit)
    | _ => ([], r2)
  let fracPart := fracAndRest.1
  let r3 := fracAndRest.2
  if intPart = [] ∧ fracPart = [] then none
  else
    let base : FloatParts :=
      { sign := sign, intVal := digitsVal intPart, fracVal := digitsVal fracPart,
        fracLen := fracPart.length, exp := 0 }
    match r3 with
    | [] => some base
    | e :: r4 =>
      if e = 'e' ∨ e = 'E' then
        match pyFloatExp r4 with
        | some k => some { base with exp := k }
        | none => none
      else none

/-- Numeric value of parsed float parts. -/
def FloatParts.value (p : FloatParts) : ℚ :=
  (p.sign : ℚ) * ((p.intVal : ℚ) + (p.fracVal : ℚ) / 10 ^ p.fracLen) * 10 ^ p.exp

/-- Python `float(s)` for finite decimal literals, as a rational. -/
def pyFloat (s : String) : Option ℚ := (pyFloatParts s).map FloatParts.value

/-! ## Data model (`src/models.py`) -/

/-- `LegalStructure` enum. -/
inductive LegalStructure where
  | LLC
  | S_CORP
  | C_CORP
  | FAMILY_OWNED
  | PARTNERSHIP
  | SOLE_PROPRIETORSHIP
  | OTHER
deriving DecidableEq, Repr

/-- The `.value` string of each `LegalStructure` member. -/
def LegalStructure.value : LegalStructure → String
  | .LLC => "LLC"
  | .S_CORP => "S-Corp"
  | .C_CORP => "C-Corp"
  | .FAMILY_OWNED => "Family-Owned Business"
  | .PARTNERSHIP => "Partnership"
  | .SOLE_PROPRIETORSHIP => "Sole Proprietorship"
  | .OTHER => "Other"

/-- `TaxSavingPotential` enum. -/
inductive TaxSavingPotential where
  | HIGH
  | MEDIUM
  | LOW
deriving DecidableEq, Repr

/-- `Address` dataclass. -/
structure Address where
  street : String
  city : String
  state : String
  zip : String
  country : String := "USA"
deriving DecidableEq, Repr

/-- `Industry` dataclass. -/
structure Industry where
  primary : String
  naics_code : Option String := none
  sic_code : Option String := none
  subcategories : List String := []
deriving DecidableEq, Repr

/-- `Financials` dataclass (floats as ℚ). -/
structure Financials where
  employee_count : Option Int := none
  estimated_revenue : Option ℚ := none
  growth_rate : Option ℚ := none
  capex_trends : Option String := none
  payroll_trends : Option String := none
deriving DecidableEq, Repr

/-- `TaxIndicators` dataclass. -/
structure TaxIndicators where
  recent_developments : Option String := none
  grants_subsidies : Option String := none
  government_contracts : Option String := none
  succession_planning : Option String := none
  financing_activity : Option String := none
  tax_saving_potential : TaxSavingPotential := .LOW
deriving DecidableEq, Repr

/-- `GeoLocation` dataclass. -/
structure GeoLocation where
  latitude : ℚ
  longitude : ℚ
  region : Option String := none
deriving DecidableEq, Repr

/-- `Company` dataclass (the `executives`, `website` and `last_updated`
fields play no role in any verified function and are omitted). -/
structure Company where
  id : String
  name : String
  description : Option String := none
  address : Option Address := none
  legal_structure : Option LegalStructure := none
  industry : Option Industry := none
  financials : Financials := {}
  tax_indicators : TaxIndicators := {}
  location : Option GeoLocation := none
deriving DecidableEq, Repr

/-- `CompanyReference` dataclass. -/
structure CompanyReference where
  company_id : String
  name : String
  address : String
  priority : Int := 0
deriving DecidableEq, Repr

/-- `Route` dataclass. -/
structure Route where
  day : String
  companies : List CompanyReference := []
  total_distance : ℚ := 0
  estimated_travel_time : ℚ := 0
  optimized_order : List Nat := []
deriving DecidableEq, Repr

/-- Python truthiness of an `Optional[str]`: `None` and `""` are falsy. -/
def optStrTruthy : Option String → Bool
  | some s => !s.isEmpty
  | none => false

/-- Python truthiness of a plain `str`: `""` is falsy. -/
def strTruthy (s : String) : Bool := !s.isEmpty

/-- Python truthiness of a dataclass instance: always `True` (dataclasses
define neither `__bool__` nor `__len__`). -/
def dataclassTruthy {α : Type} (_ : α) : Bool := true

/-- `Route.add_company`: companies without an address are ignored;
otherwise a `CompanyReference` is appended and `optimized_order` is reset
to `list(range(len(self.companies)))`. -/
def Route.add_company (r : Route) (company : Company) (priority : Int := 0) : Route :=
  match company.address with
  | none => r
  | some a =>
    let address_str := a.street ++ ", " ++ a.city ++ ", " ++ a.state ++ " " ++ a.zip
    let company_ref : CompanyReference :=
      { company_id := company.id, name := company.name, address := address_str,
        priority := priority }
    let companies := r.companies ++ [company_ref]
    { r with companies := companies, optimized_order := List.range companies.length }

/-! ## Normalizer (`src/data_normalizer.py`) -/

/-- The `Union[int, str, None]` argument of `normalize_employee_count`. -/
inductive EmployeeCountInput where
  | int (n : Int)
  | str (s : String)
  | none
deriving DecidableEq, Repr

/-- The `Union[float, str, None]` argument of `normalize_revenue`
(`int` and `float` are merged into one numeric case). -/
inductive RevenueInput where
  | num (q : ℚ)
  | str (s : String)
  | none
deriving DecidableEq, Repr

/-- Range branch of `normalize_employee_count`: `"A-B"` yields the floor
average `(A + B) // 2`; a failed parse falls through. -/
def employeeCountRange (s : String) : Option Int :=
  if strContainsChar s '-' then
    match pySplit s '-' with
    | [a, b] =>
      match pyInt (pyStrip a), pyInt (pyStrip b) with
      | some lower, some upper => some (Int.fdiv (lower + upper) 2)
      | _, _ => Option.none
    | _ => Option.none
  else Option.none

/-- Plus branch of `normalize_employee_count`: `"1,000+"` has its commas
and plus signs removed, then parses as an int. -/
def employeeCountPlus (s : String) : Option Int :=
  if strContainsChar s '+' then
    pyInt (pyRemoveChar (pyRemoveChar s ',') '+')
  else Option.none

/-- `normalize_employee_count`: integers pass through; string ranges
average; trailing `+` strips; comma-separated digits parse; otherwise
`None` (the warning log is irrelevant here). -/
def normalize_employee_count : EmployeeCountInput → Option Int
  | .none => Option.none
  | .int n => some n
  | .str s =>
    match employeeCountRange s with
    | some v => some v
    | Option.none =>
      match employeeCountPlus s with
      | some v => some v
      | Option.none => pyInt (pyRemoveChar s ',')

/-- `parse_revenue_with_suffix`: strip and upper-case, then `K`/`M`/`B`
suffixes multiply by `1e3`/`1e6`/`1e9`; otherwise parse as a plain float. -/
def parse_revenue_with_suffix (s : String) : Option ℚ :=
  let t := pyUpper (pyStrip s)
  if pyEndsWithChar t 'K' then (pyFloat (pyDropLast t)).map (· * 1000)
  else if pyEndsWithChar t 'M' then (pyFloat (pyDropLast t)).map (· * 1000000)
  else if pyEndsWithChar t 'B' then (pyFloat (pyDropLast t)).map (· * 1000000000)
  else pyFloat t

/-- Range branch of `normalize_revenue` on the cleaned string: both halves
must parse with suffixes, and then the arithmetic mean is returned;
otherwise control falls through to the single-value branch. -/
def revenueRange (cleaned : String) : Option ℚ :=
  if strContainsChar cleaned '-' then
    match pySplit cleaned '-' with
    | [a, b] =>
      match parse_revenue_with_suffix (pyStrip a), parse_revenue_with_suffix (pyStrip b) with
      | some lower, some upper => some ((lower + upper) / 2)
      | _, _ => Option.none
    | _ => Option.none
  else Option.none

/-- `normalize_revenue`: numbers pass through; strings have `$` and commas
removed, ranges are averaged, and suffixed single values are parsed;
unparsable input yields `None`. -/
def normalize_revenue : RevenueInput → Option ℚ
  | .none => Option.none
  | .num q => some q
  | .str s =>
    let cleaned := pyRemoveChar (pyRemoveChar s '$') ','
    match revenueRange cleaned with
    | some v => some v
    | Option.none => parse_revenue_with_suffix cleaned

/-- C8: the normalizers satisfy the four concrete equalities stated in the
spec: `normalize_employee_count("10-50") = 30`,
`normalize_employee_count("1,000+") = 1000`,
`normalize_revenue("$1M-$5M") = 3000000.0` and
`normalize_revenue("$750K") = 750000.0`. -/
theorem claim_C8_normalizer_examples :
    normalize_employee_count (.str "10-50") = some 30 ∧
    normalize_employee_count (.str "1,000+") = some 1000 ∧
    normalize_revenue (.str "$1M-$5M") = some 3000000 ∧
    normalize_revenue (.str "$750K") = some 750000 := by
  refine ⟨by decide, by decide, ?_, ?_⟩
  · have h1 : pyRemoveChar (pyRemoveChar "$1M-$5M" '$') ',' = "1M-5M" := by decide
    have h2 : pySplit "1M-5M" '-' = ["1M", "5M"] := by decide
    have h3 : pyUpper (pyStrip (pyStrip "1M")) = "1M" := by decide
    have h4 : pyUpper (pyStrip (pyStrip "5M")) = "5M" := by decide
    have h5 : pyFloat (pyDropLast "1M") = some 1 := by
      simp only [pyFloat,
        show pyFloatParts (pyDropLast "1M") = some ⟨1, 1, 0, 0, 0⟩ from by decide,
        Option.map_some]
      norm_num [FloatParts.value]
    have h6 : pyFloat (pyDropLast "5M") = some 5 := by
      simp only [pyFloat,
        show pyFloatParts (pyDropLast "5M") = some ⟨1, 5, 0, 0, 0⟩ from by decide,
        Option.map_some]
      norm_num [FloatParts.value]
    simp only [normalize_revenue, h1, revenueRange,
      show strContainsChar "1M-5M" '-' = true from by decide, if_true, h2,
      parse_revenue_with_suffix, h3, h4,
      show pyEndsWithChar "1M" 'K' = false from by decide,
      show pyEndsWithChar "5M" 'K' = false from by decide,
      show pyEndsWithChar "1M" 'M' = true from by decide,
      show pyEndsWithChar "5M" 'M' = true from by decide,
      h5, h6, Option.map_some]
    norm_num
  · have h1 : pyRemoveChar (pyRemoveChar "$750K" '$') ',' = "750K" := by decide
    have h3 : pyUpper (pyStrip "750K") = "750K" := by decide
    have h5 : pyFloat (pyDropLast "750K") = some 750 := by
      simp only [pyFloat,
        show pyFloatParts (pyDropLast "750K") = some ⟨1, 750, 0, 0, 0⟩ from by decide,
        Option.map_some]
      norm_num [FloatParts.value]
    simp only [normalize_revenue, h1, revenueRange,
      show strContainsChar "750K" '-' = false from by decide,
      Bool.false_eq_true, if_false, parse_revenue_with_suffix, h3,
      show pyEndsWithChar "750K" 'K' = true from by decide,
      h5, Option.map_some, if_true]
    norm_num

/-! ## Similarity scorer (`src/similarity_scorer.py`) -/

/-- `_score_industry_similarity`.  The partial-NAICS block can fall
through to the subcategory-overlap check, which is why the last two NAICS
conditions are separate branches rather than a nested block. -/
def score_industry_similarity (company1 company2 : Company) : ℚ :=
  match company1.industry, company2.industry with
  | some i1, some i2 =>
    if i1.primary = i2.primary then 1
    else if optStrTruthy i1.naics_code ∧ optStrTruthy i2.naics_code ∧
        i1.naics_code = i2.naics_code then 9/10
    else if optStrTruthy i1.sic_code ∧ optStrTruthy i2.sic_code ∧
        i1.sic_code = i2.sic_code then 9/10
    else if optStrTruthy i1.naics_code ∧ optStrTruthy i2.naics_code ∧
        pyTake (i1.naics_code.getD "") 2 = pyTake (i2.naics_code.getD "") 2 then 8/10
    else if optStrTruthy i1.naics_code ∧ optStrTruthy i2.naics_code ∧
        pyTake (i1.naics_code.getD "") 1 = pyTake (i2.naics_code.getD "") 1 then 6/10
    else
      let subcategories1 := i1.subcategories.toFinset
      let subcategories2 := i2.subcategories.toFinset
      let overlap := subcategories1 ∩ subcategories2
      if subcategories1.Nonempty ∧ subcategories2.Nonempty ∧ overlap.Nonempty then
        1/2 + (3/10 * (overlap.card : ℚ) / (max subcategories1.card subcategories2.card : ℚ))
      else 2/10
  | _, _ => 1/10

/-- `_score_size_similarity`, with `np.log10` supplied as the parameter
`log10`.  The `not company.financials` guard of the source is always false
for a dataclass instance (`dataclassTruthy`), mirrored literally. -/
def score_size_similarity (log10 : ℚ → ℚ) (company1 company2 : Company) : ℚ :=
  if ¬ dataclassTruthy company1.financials ∨ ¬ dataclassTruthy company2.financials then 1/2
  else
    let employee_similarity : ℚ :=
      match company1.financials.employee_count, company2.financials.employee_count with
      | some e1, some e2 =>
        let log_emp1 := log10 (max 10 (e1 : ℚ))
        let log_emp2 := log10 (max 10 (e2 : ℚ))
        min log_emp1 log_emp2 / max log_emp1 log_emp2
      | _, _ => 1/2
    let revenue_similarity : ℚ :=
      match company1.financials.estimated_revenue, company2.financials.estimated_revenue with
      | some r1, some r2 =>
        let log_rev1 := log10 (max 10000 r1)
        let log_rev2 := log10 (max 10000 r2)
        min log_rev1 log_rev2 / max log_rev1 log_rev2
      | _, _ => 1/2
    6/10 * employee_similarity + 4/10 * revenue_similarity

/-- `_score_location_similarity`. -/
def score_location_similarity (company1 company2 : Company) : ℚ :=
  match company1.address, company2.address with
  | some a1, some a2 =>
    if a1.street = a2.street ∧ a1.city = a2.city ∧ a1.state = a2.state then 1
    else if a1.city = a2.city ∧ a1.state = a2.state then 9/10
    else if a1.state = a2.state ∧ strTruthy a1.zip ∧ strTruthy a2.zip ∧
        pyTake a1.zip 3 = pyTake a2.zip 3 then 8/10
    else if a1.state = a2.state then 6/10
    else 2/10
  | _, _ => 1/10

/-- The `corp_types` list of `_score_legal_structure_similarity`. -/
def corp_types : List String := ["C-Corp", "S-Corp"]

/-- The `owner_operated_types` list of `_score_legal_structure_similarity`. -/
def owner_operated_types : List String :=
  ["LLC", "Family-Owned Business", "Partnership", "Sole Proprietorship"]

/-- `_score_legal_structure_similarity`. -/
def score_legal_structure_similarity (company1 company2 : Company) : ℚ :=
  match company1.legal_structure, company2.legal_structure with
  | some l1, some l2 =>
    if l1 = l2 then 1
    else if l1.value ∈ corp_types ∧ l2.value ∈ corp_types then 8/10
    else if l1.value ∈ owner_operated_types ∧ l2.value ∈ owner_operated_types then 7/10
    else 3/10
  | _, _ => 1/2

/-- `_score_growth_similarity`.  The dead `not financials` dataclass guard
is mirrored literally. -/
def score_growth_similarity (company1 company2 : Company) : ℚ :=
  if ¬ dataclassTruthy company1.financials ∨ ¬ dataclassTruthy company2.financials then 1/2
  else
    match company1.financials.growth_rate, company2.financials.growth_rate with
    | some g1, some g2 =>
      let diff := |g1 - g2|
      if diff ≤ 2 then 1
      else if diff ≤ 5 then 8/10
      else if diff ≤ 10 then 6/10
      else if diff ≤ 20 then 4/10
      else 2/10
    | _, _ => 1/2

/-- `score_company_similarity`: the weighted sum of the five sub-scores
with the weights of `SimilarityScorer.__init__`
(industry 0.35, size 0.25, location 0.20, legal structure 0.10,
growth 0.10). -/
def score_company_similarity (log10 : ℚ → ℚ) (reference target : Company) : ℚ :=
  score_industry_similarity reference target * (35/100) +
  score_size_similarity log10 reference target * (25/100) +
  score_location_similarity reference target * (20/100) +
  score_legal_structure_similarity reference target * (10/100) +
  score_growth_similarity reference target * (10/100)

/-- `_score_growth_rate` (tax side). -/
def score_growth_rate (company : Company) : ℚ :=
  if ¬ dataclassTruthy company.financials ∨ company.financials.growth_rate = none then 3/10
  else
    let growth_rate := (company.financials.growth_rate).getD 0
    if growth_rate ≥ 15 then 1
    else if growth_rate ≥ 10 then 8/10
    else if growth_rate ≥ 5 then 5/10
    else 2/10

/-- Strong hiring-expansion indicator keywords. -/
def hiringStrongIndicators : List String :=
  ["significant hiring", "major expansion", "doubled workforce",
   "rapid growth in employees", "aggressive hiring"]

/-- Moderate hiring-expansion indicator keywords. -/
def hiringModerateIndicators : List String :=
  ["hiring", "expansion", "growing team", "adding staff", "increasing workforce"]

/-- Python `any(indicator in text for indicator in indicators)`. -/
def anyIndicatorIn (indicators : List String) (text : String) : Bool :=
  indicators.any (fun indicator => strContainsSub text indicator)

/-- `_score_hiring_expansion`: strong keyword 1.0, moderate keyword 0.7,
else 0.5 when the employee count exceeds 50, else 0.2. -/
def score_hiring_expansion (company : Company) : ℚ :=
  if ¬ dataclassTruthy company.financials then 3/10
  else
    let keywordScore : Option ℚ :=
      if optStrTruthy company.financials.payroll_trends then
        let payroll_trends := pyLower ((company.financials.payroll_trends).getD "")
        if anyIndicatorIn hiringStrongIndicators payroll_trends then some 1
        else if anyIndicatorIn hiringModerateIndicators payroll_trends then some (7/10)
        else none
      else none
    match keywordScore with
    | some v => v
    | none =>
      if (match company.financials.employee_count with
          | some e => decide (e ≠ 0) && decide (e > 50)
          | none => false) then 1/2
      else 2/10

/-- Strong equipment-upgrade indicator keywords. -/
def equipmentStrongIndicators : List String :=
  ["major investment", "new facility", "significant upgrade",
   "automation investment", "new manufacturing line", "facility expansion"]

/-- Moderate equipment-upgrade indicator keywords. -/
def equipmentModerateIndicators : List String :=
  ["equipment purchase", "upgrade", "renovation", "expansion",
   "new equipment", "technology investment"]

/-- `_score_equipment_upgrades`. -/
def score_equipment_upgrades (company : Company) : ℚ :=
  if ¬ dataclassTruthy company.financials ∨
      ¬ optStrTruthy company.financials.capex_trends then 3/10
  else
    let capex_trends := pyLower ((company.financials.capex_trends).getD "")
    if anyIndicatorIn equipmentStrongIndicators capex_trends then 1
    else if anyIndicatorIn equipmentModerateIndicators capex_trends then 7/10
    else 2/10

/-- Strong succession-planning indicator keywords. -/
def successionStrongIndicators : List String :=
  ["leadership transition", "succession plan", "ownership transfer",
   "generational change", "retirement planning", "family business transition"]

/-- Moderate succession-planning indicator keywords. -/
def successionModerateIndicators : List String :=
  ["new leadership", "management change", "executive transition",
   "restructuring", "ownership changes"]

/-- `_score_succession_planning`. -/
def score_succession_planning (company : Company) : ℚ :=
  if ¬ dataclassTruthy company.tax_indicators ∨
      ¬ optStrTruthy company.tax_indicators.succession_planning then 2/10
  else
    let succession_planning := pyLower ((company.tax_indicators.succession_planning).getD "")
    if anyIndicatorIn successionStrongIndicators succession_planning then 1
    else if anyIndicatorIn successionModerateIndicators succession_planning then 7/10
    else 3/10

/-- Strong government-contract indicator keywords. -/
def governmentStrongIndicators : List String :=
  ["major government contract", "federal contract award",
   "multi-year government project", "significant public sector work",
   "primary government contractor"]

/-- Moderate government-contract indicator keywords. -/
def governmentModerateIndicators : List String :=
  ["government work", "public sector", "state contract",
   "municipal project", "government bid"]

/-- `_score_government_contracts`. -/
def score_government_contracts (company : Company) : ℚ :=
  if ¬ dataclassTruthy company.tax_indicators ∨
      ¬ optStrTruthy company.tax_indicators.government_contracts then 2/10
  else
    let government_contracts := pyLower ((company.tax_indicators.government_contracts).getD "")
    if anyIndicatorIn governmentStrongIndicators government_contracts then 1
    else if anyIndicatorIn governmentModerateIndicators government_contracts then 7/10
    else 3/10

/-- The weighted indicator sum of `score_tax_saving_potential`, with the
weights of `SimilarityScorer.__init__` (growth_rate 0.30,
hiring_expansion 0.20, equipment_upgrades 0.20, succession_planning 0.15,
government_contracts 0.15). -/
def tax_weighted_score (company : Company) : ℚ :=
  score_growth_rate company * (30/100) +
  score_hiring_expansion company * (20/100) +
  score_equipment_upgrades company * (20/100) +
  score_succession_planning company * (15/100) +
  score_government_contracts company * (15/100)

/-- `score_tax_saving_potential`: HIGH at weighted score ≥ 0.7, MEDIUM at
≥ 0.4, LOW otherwise. -/
def score_tax_saving_potential (company : Company) : TaxSavingPotential :=
  if tax_weighted_score company ≥ 7/10 then .HIGH
  else if tax_weighted_score company ≥ 4/10 then .MEDIUM
  else .LOW

/-- A company with industry, address, legal structure, and the three
numeric financial fields all present. -/
def FullyPopulated (c : Company) : Prop :=
  c.industry.isSome = true ∧ c.address.isSome = true ∧ c.legal_structure.isSome = true ∧
  c.financials.employee_count.isSome = true ∧ c.financials.estimated_revenue.isSome = true ∧
  c.financials.growth_rate.isSome = true

/-- C1: for a fully-populated company, every sub-score of
`score_company_similarity` is 1 on identical inputs, and the weighted sum
with weights 0.35/0.25/0.20/0.10/0.10 is exactly 1.  The only fact needed
about `np.log10` is that it is positive at arguments ≥ 10 (true of the
real log10, since such arguments exceed 1). -/
theorem claim_C1_self_similarity (log10 : ℚ → ℚ)
    (hlog : ∀ x : ℚ, 10 ≤ x → 0 < log10 x) (A : Company) (hA : FullyPopulated A) :
    score_industry_similarity A A = 1 ∧
    score_size_similarity log10 A A = 1 ∧
    score_location_similarity A A = 1 ∧
    score_legal_structure_similarity A A = 1 ∧
    score_growth_similarity A A = 1 ∧
    score_company_similarity log10 A A = 1 := by
  obtain ⟨hInd, hAddr, hLegal, hEmp, hRev, hGrow⟩ := hA
  obtain ⟨i, hi⟩ := Option.isSome_iff_exists.mp hInd
  obtain ⟨a, ha⟩ := Option.isSome_iff_exists.mp hAddr
  obtain ⟨l, hl⟩ := Option.isSome_iff_exists.mp hLegal
  obtain ⟨e, he⟩ := Option.isSome_iff_exists.mp hEmp
  obtain ⟨r, hr⟩ := Option.isSome_iff_exists.mp hRev
  obtain ⟨g, hg⟩ := Option.isSome_iff_exists.mp hGrow
  have hind : score_industry_similarity A A = 1 := by
    simp [score_industry_similarity, hi]
  have hemp : (0:ℚ) < log10 (max 10 (e : ℚ)) := hlog _ (le_max_left _ _)
  have hrev : (0:ℚ) < log10 (max 10000 r) :=
    hlog _ (le_trans (by norm_num) (le_max_left (10000:ℚ) r))
  have hsize : score_size_similarity log10 A A = 1 := by
    simp only [score_size_similarity, dataclassTruthy, not_true, or_self, if_false, he, hr]
    rw [min_self, max_self, min_self, max_self, div_self hemp.ne.symm, div_self hrev.ne.symm]
    norm_num
  have hloc : score_location_similarity A A = 1 := by
    simp [score_location_similarity, ha]
  have hleg : score_legal_structure_similarity A A = 1 := by
    simp [score_legal_structure_similarity, hl]
  have hgro : score_growth_similarity A A = 1 := by
    simp only [score_growth_similarity, dataclassTruthy, not_true, or_self, if_false, hg]
    rw [sub_self, abs_zero, if_pos (by norm_num : (0:ℚ) ≤ 2)]
  refine ⟨hind, hsize, hloc, hleg, hgro, ?_⟩
  simp only [score_company_similarity, hind, hsize, hloc, hleg, hgro]
  norm_num

/-- A concrete fully-populated company used to instantiate hypotheses. -/
def sampleCompanyA : Company :=
  { id := "a1", name := "Acme Manufacturing",
    address := some { street := "1 Main St", city := "Milwaukee", state := "WI", zip := "53202" },
    legal_structure := some .LLC,
    industry := some { primary := "Manufacturing" },
    financials := { employee_count := some 100, estimated_revenue := some 5000000,
                    growth_rate := some 10 } }

/-- Witness for C1 at a concrete company and a concrete admissible log10. -/
theorem claim_C1_self_similarity_witness :
    (∀ x : ℚ, 10 ≤ x → 0 < (fun _ : ℚ => (1:ℚ)) x) ∧ FullyPopulated sampleCompanyA ∧
    score_company_similarity (fun _ : ℚ => (1:ℚ)) sampleCompanyA sampleCompanyA = 1 :=
  ⟨fun _ _ => one_pos, ⟨rfl, rfl, rfl, rfl, rfl, rfl⟩,
    (claim_C1_self_similarity (fun _ : ℚ => (1:ℚ)) (fun _ _ => one_pos) sampleCompanyA
      ⟨rfl, rfl, rfl, rfl, rfl, rfl⟩).2.2.2.2.2⟩

lemma score_industry_similarity_comm (c1 c2 : Company) :
    score_industry_similarity c1 c2 = score_industry_similarity c2 c1 := by
  unfold score_industry_similarity
  cases h1 : c1.industry with
  | none => cases h2 : c2.industry <;> rfl
  | some i1 =>
    cases h2 : c2.industry with
    | none => rfl
    | some i2 =>
      simp only
      refine if_congr eq_comm rfl (if_congr ?_ rfl (if_congr ?_ rfl (if_congr ?_ rfl
        (if_congr ?_ rfl ?_))))
      · exact ⟨fun ⟨x, y, z⟩ => ⟨y, x, z.symm⟩, fun ⟨x, y, z⟩ => ⟨y, x, z.symm⟩⟩
      · exact ⟨fun ⟨x, y, z⟩ => ⟨y, x, z.symm⟩, fun ⟨x, y, z⟩ => ⟨y, x, z.symm⟩⟩
      · exact ⟨fun ⟨x, y, z⟩ => ⟨y, x, z.symm⟩, fun ⟨x, y, z⟩ => ⟨y, x, z.symm⟩⟩
      · exact ⟨fun ⟨x, y, z⟩ => ⟨y, x, z.symm⟩, fun ⟨x, y, z⟩ => ⟨y, x, z.symm⟩⟩
      · refine if_congr ?_ ?_ rfl
        · rw [Finset.inter_comm]
          exact ⟨fun ⟨x, y, z⟩ => ⟨y, x, z⟩, fun ⟨x, y, z⟩ => ⟨y, x, z⟩⟩
        · rw [Finset.inter_comm, max_comm]

lemma score_size_similarity_comm (log10 : ℚ → ℚ) (c1 c2 : Company) :
    score_size_similarity log10 c1 c2 = score_size_similarity log10 c2 c1 := by
  unfold score_size_similarity
  cases c1.financials.employee_count <;> cases c2.financials.employee_count <;>
    cases c1.financials.estimated_revenue <;> cases c2.financials.estimated_revenue <;>
    simp [dataclassTruthy, min_comm, max_comm]

lemma score_location_similarity_comm (c1 c2 : Company) :
    score_location_similarity c1 c2 = score_location_similarity c2 c1 := by
  unfold score_location_similarity
  cases c1.address with
  | none => cases c2.address <;> rfl
  | some a1 =>
    cases c2.address with
    | none => rfl
    | some a2 =>
      simp only
      refine if_congr ?_ rfl (if_congr ?_ rfl (if_congr ?_ rfl (if_congr eq_comm rfl rfl)))
      · exact ⟨fun ⟨x, y, z⟩ => ⟨x.symm, y.symm, z.symm⟩,
          fun ⟨x, y, z⟩ => ⟨x.symm, y.symm, z.symm⟩⟩
      · exact ⟨fun ⟨x, y⟩ => ⟨x.symm, y.symm⟩, fun ⟨x, y⟩ => ⟨x.symm, y.symm⟩⟩
      · exact ⟨fun ⟨x, y, z, w⟩ => ⟨x.symm, z, y, w.symm⟩,
          fun ⟨x, y, z, w⟩ => ⟨x.symm, z, y, w.symm⟩⟩

lemma score_legal_structure_similarity_comm (c1 c2 : Company) :
    score_legal_structure_similarity c1 c2 = score_legal_structure_similarity c2 c1 := by
  unfold score_legal_structure_similarity
  cases c1.legal_structure with
  | none => cases c2.legal_structure <;> rfl
  | some l1 =>
    cases c2.legal_structure with
    | none => rfl
    | some l2 =>
      simp only
      refine if_congr eq_comm rfl (if_congr and_comm rfl (if_congr and_comm rfl rfl))

lemma score_growth_similarity_comm (c1 c2 : Company) :
    score_growth_similarity c1 c2 = score_growth_similarity c2 c1 := by
  unfold score_growth_similarity
  cases c1.financials.growth_rate with
  | none => cases c2.financials.growth_rate <;> rfl
  | some g1 =>
    cases c2.financials.growth_rate with
    | none => rfl
    | some g2 => simp [dataclassTruthy, abs_sub_comm g1 g2]

/-- C2: `score_company_similarity` is symmetric in its two arguments, and
so is each of the five sub-scores, for any log10 function. -/
theorem claim_C2_symmetry (log10 : ℚ → ℚ) (A B : Company) :
    score_industry_similarity A B = score_industry_similarity B A ∧
    score_size_similarity log10 A B = score_size_similarity log10 B A ∧
    score_location_similarity A B = score_location_similarity B A ∧
    score_legal_structure_similarity A B = score_legal_structure_similarity B A ∧
    score_growth_similarity A B = score_growth_similarity B A ∧
    score_company_similarity log10 A B = score_company_similarity log10 B A := by
  refine ⟨score_industry_similarity_comm A B, score_size_similarity_comm log10 A B,
    score_location_similarity_comm A B, score_legal_structure_similarity_comm A B,
    score_growth_similarity_comm A B, ?_⟩
  simp only [score_company_similarity, score_industry_similarity_comm A B,
    score_size_similarity_comm log10 A B, score_location_similarity_comm A B,
    score_legal_structure_similarity_comm A B, score_growth_similarity_comm A B]

/-- The end-to-end tax-potential scenario company of the spec. -/
def taxScenarioCompany : Company :=
  { id := "t1", name := "Scenario Co",
    financials := { growth_rate := some 20,
                    payroll_trends := some "significant hiring",
                    capex_trends := some "major investment in new facility" },
    tax_indicators := { succession_planning := some "owner retirement succession plan",
                        government_contracts := some "major federal contract award" } }

/-- C5: `score_tax_saving_potential` is HIGH exactly at weighted score
≥ 0.7, MEDIUM exactly at 0.4 ≤ score < 0.7, LOW exactly below 0.4; and
the spec's end-to-end scenario company (growth 20, strong hiring, capex,
succession and government-contract texts) classifies HIGH. -/
theorem claim_C5_tax_potential_thresholds :
    (∀ company : Company,
      (score_tax_saving_potential company = .HIGH ↔ 7/10 ≤ tax_weighted_score company) ∧
      (score_tax_saving_potential company = .MEDIUM ↔
        4/10 ≤ tax_weighted_score company ∧ tax_weighted_score company < 7/10) ∧
      (score_tax_saving_potential company = .LOW ↔ tax_weighted_score company < 4/10)) ∧
    score_tax_saving_potential taxScenarioCompany = .HIGH := by
  constructor
  · intro company
    unfold score_tax_saving_potential
    by_cases h1 : tax_weighted_score company ≥ 7/10
    · rw [if_pos h1]
      exact ⟨⟨fun _ => h1, fun _ => rfl⟩,
        ⟨fun h => absurd h (by decide), fun h => absurd h1 (not_le.mpr h.2)⟩,
        ⟨fun h => absurd h (by decide),
         fun h => absurd h1 (not_le.mpr (lt_of_lt_of_le h (by norm_num)))⟩⟩
    · rw [if_neg h1]
      by_cases h2 : tax_weighted_score company ≥ 4/10
      · rw [if_pos h2]
        exact ⟨⟨fun h => absurd h (by decide), fun h => absurd h h1⟩,
          ⟨fun _ => ⟨h2, not_le.mp h1⟩, fun _ => rfl⟩,
          ⟨fun h => absurd h (by decide), fun h => absurd h (not_lt.mpr h2)⟩⟩
      · rw [if_neg h2]
        exact ⟨⟨fun h => absurd h (by decide), fun h => absurd h h1⟩,
          ⟨fun h => absurd h (by decide), fun h => absurd h.1 h2⟩,
          ⟨fun _ => not_le.mp h2, fun _ => rfl⟩⟩
  · have hgr : score_growth_rate taxScenarioCompany = 1 := by
      rw [score_growth_rate, if_neg (by decide)]
      norm_num [taxScenarioCompany]
    have hhi : score_hiring_expansion taxScenarioCompany = 1 := by
      rw [score_hiring_expansion, if_neg (by decide)]
      simp only [taxScenarioCompany, Option.getD_some,
        show optStrTruthy (some "significant hiring") = true from rfl, if_true,
        show anyIndicatorIn hiringStrongIndicators (pyLower "significant hiring") = true from
          by decide]
    have heq : score_equipment_upgrades taxScenarioCompany = 1 := by
      rw [score_equipment_upgrades,
        if_neg (by decide)]
      simp only [taxScenarioCompany, Option.getD_some,
        show anyIndicatorIn equipmentStrongIndicators
            (pyLower "major investment in new facility") = true from by decide, if_true]
    have hsu : score_succession_planning taxScenarioCompany = 1 := by
      rw [score_succession_planning,
        if_neg (by decide)]
      simp only [taxScenarioCompany, Option.getD_some,
        show anyIndicatorIn successionStrongIndicators
            (pyLower "owner retirement succession plan") = true from by decide, if_true]
    have hgo : score_government_contracts taxScenarioCompany = 1 := by
      rw [score_government_contracts,
        if_neg (by decide)]
      simp only [taxScenarioCompany, Option.getD_some,
        show anyIndicatorIn governmentStrongIndicators
            (pyLower "major federal contract award") = true from by decide, if_true]
    have hw : tax_weighted_score taxScenarioCompany = 1 := by
      rw [tax_weighted_score, hgr, hhi, heq, hsu, hgo]
      norm_num
    rw [score_tax_saving_potential, hw, if_pos (by norm_num)]

/-! ## Configuration (`src/config.py`) -/

/-- A value of the location-schedule dictionary: Monday–Wednesday carry
lists of region names, Thursday and Friday carry the plain string
`"Follow-up"` (not a list). -/
inductive ScheduleVal where
  | list (regions : List String)
  | str (s : String)
deriving DecidableEq, Repr

/-- `Config.get_location_schedule()` with the default environment
(`MONDAY_LOCATIONS` &c. unset). -/
def location_schedule : List (String × ScheduleVal) :=
  [("Monday", .list ["Waukesha", "West Milwaukee", "Jackson", "West Bend"]),
   ("Tuesday", .list ["Kenosha", "Racine"]),
   ("Wednesday", .list ["West Waukesha", "Madison"]),
   ("Thursday", .str "Follow-up"),
   ("Friday", .str "Follow-up")]

/-! ## Logistics optimizer (`src/logistics_optimizer.py`) -/

/-- One region name matches a company city when either lower-cased string
contains the other. -/
def regionMatches (city_lower : String) (region : String) : Bool :=
  strContainsSub city_lower (pyLower region) || strContainsSub (pyLower region) city_lower

/-- The first day of the schedule one of whose (list-valued) regions
matches the lower-cased city; `isinstance(regions, list)` fails for the
Thursday/Friday string value, so those days never match. -/
def firstMatchingDay (city_lower : String) : Option String :=
  location_schedule.findSome? (fun dayRegions =>
    match dayRegions.2 with
    | .list regions =>
      if regions.any (regionMatches city_lower) then some dayRegions.1 else none
    | .str _ => none)

/-- The day a company is appended to by `assign_companies_to_days`:
`none` when the company has no address or an empty city (the loop body
`continue`s), otherwise the first matching day, defaulting to Thursday. -/
def dayForCompany (c : Company) : Option String :=
  match c.address with
  | none => none
  | some a =>
    if ¬ strTruthy a.city then none
    else
      match firstMatchingDay (pyLower a.city) with
      | some day => some day
      | none => some "Thursday"

/-- Append a company to the bucket of the given day. -/
def appendToDay (days : List (String × List Company)) (day : String) (c : Company) :
    List (String × List Company) :=
  days.map (fun kv => if kv.1 = day then (kv.1, kv.2 ++ [c]) else kv)

/-- The initial `days` dictionary: one empty bucket per schedule key. -/
def initDays : List (String × List Company) :=
  location_schedule.map (fun kv => (kv.1, ([] : List Company)))

/-- `assign_companies_to_days`: buckets keyed by the five schedule days;
companies without an address or city are skipped, every other company is
appended to its first matching day, or to Thursday when nothing matches. -/
def assign_companies_to_days (companies : List Company) : List (String × List Company) :=
  companies.foldl (fun days c =>
    match dayForCompany c with
    | some day => appendToDay days day c
    | none => days) initDays

/-- A company has usable coordinates when its location is present and
neither coordinate is `0.0` (Python float truthiness). -/
def hasValidLocation (c : Company) : Bool :=
  match c.location with
  | some loc => decide (loc.latitude ≠ 0) && decide (loc.longitude ≠ 0)
  | none => false

/-- The `companies_with_location` filter of `cluster_companies_by_region`. -/
def companies_with_location (companies : List Company) : List Company :=
  companies.filter hasValidLocation

/-- Decimal digits of a natural number (structural fuel recursion, so the
kernel can evaluate it). -/
def natDigits : Nat → Nat → List Char → List Char
  | 0, _, acc => acc
  | fuel + 1, n, acc =>
    if n < 10 then Char.ofNat (n + 48) :: acc
    else natDigits fuel (n / 10) (Char.ofNat (n % 10 + 48) :: acc)

/-- Decimal string of a natural number. -/
def natToString (n : Nat) : String := ⟨natDigits (n + 1) n []⟩

/-- Decimal string of an integer (Python `str(label)`). -/
def intToString : Int → String
  | .ofNat n => natToString n
  | .negSucc n => "-" ++ natToString (n + 1)

/-- The bucket name for a DBSCAN label: noise (`-1`) goes to `"Other"`,
label `k` to `"Cluster_k"`. -/
def regionOf (label : Int) : String :=
  if label = -1 then "Other" else "Cluster_" ++ intToString label

/-- Append a company to the bucket of `region`, creating the bucket at the
end on first use (Python dict insertion order). -/
def addToCluster (clusters : List (String × List Company)) (region : String) (c : Company) :
    List (String × List Company) :=
  match clusters with
  | [] => [(region, [c])]
  | kv :: rest =>
    if kv.1 = region then (kv.1, kv.2 ++ [c]) :: rest
    else kv :: addToCluster rest region c

/-- The grouping loop of `cluster_companies_by_region` over the
label/company pairs. -/
def buildClusters (pairs : List (Int × Company)) : List (String × List Company) :=
  pairs.foldl (fun clusters p => addToCluster clusters (regionOf p.1) p.2) []

/-- `cluster_companies_by_region`, with the DBSCAN label array supplied as
the parameter `labels` (sklearn's `DBSCAN(...).fit(coords).labels_` is an
external collaborator; it returns one label per input row, which is the
only structural fact the verified properties use). -/
def cluster_companies_by_region (companies : List Company) (labels : List Int) :
    List (String × List Company) :=
  let withLocation := companies_with_location companies
  match withLocation with
  | [] => []
  | _ => buildClusters (labels.zip withLocation)

/-- `_calculate_distance`: the placeholder geo-distance collaborator,
a constant 10.0 miles. -/
def calculate_distance (_address1 _address2 : String) : ℚ := 10

/-- `_calculate_distance_matrix`: the symmetric pairwise matrix over the
start location followed by the company addresses, zero on the diagonal. -/
def calculate_distance_matrix (companies : List CompanyReference) (start_location : String) :
    List (List ℚ) :=
  let addresses := start_location :: companies.map (fun c => c.address)
  let n := addresses.length
  (List.range n).map (fun i => (List.range n).map (fun j =>
    if i = j then 0
    else if i < j then calculate_distance (addresses.getD i "") (addresses.getD j "")
    else calculate_distance (addresses.getD j "") (addresses.getD i "")))

/-- Entry `(i, j)` of the distance matrix. -/
def matrixGet (distances : List (List ℚ)) (i j : Nat) : ℚ :=
  (distances.getD i []).getD j 0

/-- Python `min(unvisited, key=...)`: the first element of the list
attaining the minimal key. -/
def argminKey (f : Nat → ℚ) : List Nat → Option Nat
  | [] => none
  | x :: xs => some (xs.foldl (fun best y => if f y < f best then y else best) x)

/-- The greedy loop of `_solve_tsp_greedy`; the fuel is the size of the
unvisited set, which shrinks by exactly one per iteration. -/
def tspGo (distances : List (List ℚ)) : Nat → Nat → List Nat → List Nat
  | 0, _, _ => []
  | fuel + 1, current, unvisited =>
    match argminKey (fun x => matrixGet distances current x) unvisited with
    | some closest => closest :: tspGo distances fuel closest (unvisited.erase closest)
    | none => []

/-- `_solve_tsp_greedy`: start at index 0, repeatedly step to the nearest
unvisited index, then return to 0. -/
def solve_tsp_greedy (distances : List (List ℚ)) : List Nat :=
  let n := distances.length
  let unvisited := List.range' 1 (n - 1)
  (0 :: tspGo distances unvisited.length 0 unvisited) ++ [0]

/-- Total distance along consecutive tour edges. -/
def tourDistance (distances : List (List ℚ)) : List Nat → ℚ
  | [] => 0
  | [_] => 0
  | a :: b :: rest => matrixGet distances a b + tourDistance distances (b :: rest)

/-- `optimize_route`: empty input yields an empty route; companies without
addresses are dropped by `Route.add_company`; if none remain the
unoptimized route is returned; otherwise the greedy tour, its total
distance and the travel time at 30 mph are filled in. -/
def optimize_route (companies : List Company) (start_location : String) : Route :=
  match companies with
  | [] => { day := "", companies := [], total_distance := 0, estimated_travel_time := 0 }
  | first :: _ =>
    let day : String :=
      match first.location with
      | some loc => if optStrTruthy loc.region then loc.region.getD "" else "Monday"
      | none => "Monday"
    let route := companies.foldl (fun r c => r.add_company c) { day := day : Route }
    match route.companies with
    | [] => route
    | _ =>
      let distances := calculate_distance_matrix route.companies start_location
      let optimized_order := solve_tsp_greedy distances
      let total_distance := tourDistance distances optimized_order
      { route with optimized_order := optimized_order,
                   total_distance := total_distance,
                   estimated_travel_time := total_distance / 30 }

/-- Python truthiness of the optional historical dict: `None` and the
empty dict are falsy. -/
def historicalTruthy : Option (List (String × ℚ)) → Bool
  | some l => !l.isEmpty
  | none => false

/-- The hard-coded default response-rate table. -/
def default_rates : List (String × ℚ) :=
  [("Monday", 7/10), ("Tuesday", 9/10), ("Wednesday", 8/10),
   ("Thursday", 7/10), ("Friday", 5/10)]

/-- `suggest_best_outreach_days`: a truthy historical dict is returned
as-is, otherwise the default table (the company list is unused). -/
def suggest_best_outreach_days (_companies : List Company)
    (historical_data : Option (List (String × ℚ)) := Option.none) : List (String × ℚ) :=
  if historicalTruthy historical_data then historical_data.getD []
  else default_rates

/-- C10: `Route.add_company` leaves the route unchanged when the company
has no address; with an address it appends exactly one `CompanyReference`,
resets `optimized_order` to the identity permutation over the new company
count, and leaves `total_distance`, `estimated_travel_time` (and `day`)
unchanged. -/
theorem claim_C10_add_company_frame (r : Route) (c : Company) (p : Int) :
    (c.address = Option.none → r.add_company c p = r) ∧
    (∀ a : Address, c.address = some a →
      (r.add_company c p).companies = r.companies ++
        [{ company_id := c.id, name := c.name,
           address := a.street ++ ", " ++ a.city ++ ", " ++ a.state ++ " " ++ a.zip,
           priority := p }] ∧
      (r.add_company c p).optimized_order = List.range (r.companies.length + 1) ∧
      (r.add_company c p).total_distance = r.total_distance ∧
      (r.add_company c p).estimated_travel_time = r.estimated_travel_time ∧
      (r.add_company c p).day = r.day) := by
  constructor
  · intro h
    simp [Route.add_company, h]
  · intro a ha
    simp [Route.add_company, ha]

/-- A route with no companies, used to instantiate hypotheses. -/
def emptyRouteMonday : Route := { day := "Monday" }

/-- A company without an address, used to instantiate hypotheses. -/
def companyNoAddress : Company := { id := "n1", name := "NoAddr" }

/-- Witness for C10 at concrete routes and companies. -/
theorem claim_C10_add_company_frame_witness :
    Route.add_company emptyRouteMonday companyNoAddress 0 = emptyRouteMonday ∧
    (Route.add_company emptyRouteMonday sampleCompanyA 0).optimized_order =
      List.range (emptyRouteMonday.companies.length + 1) :=
  ⟨(claim_C10_add_company_frame emptyRouteMonday companyNoAddress 0).1 rfl,
   ((claim_C10_add_company_frame emptyRouteMonday sampleCompanyA 0).2
     { street := "1 Main St", city := "Milwaukee", state := "WI", zip := "53202" } rfl).2.1⟩

lemma foldl_add_company_no_address (companies : List Company) (r : Route)
    (h : ∀ c ∈ companies, c.address = Option.none) :
    companies.foldl (fun r c => r.add_company c) r = r := by
  induction companies generalizing r with
  | nil => rfl
  | cons x xs ih =>
    have hx : Route.add_company r x = r := by
      simp [Route.add_company, h x (List.mem_cons_self x xs)]
    simp only [List.foldl_cons, hx]
    exact ih r (fun c hc => h c (List.mem_cons_of_mem x hc))

/-- C7: for an empty company list, or one in which no company has an
address, `optimize_route` returns a route with no companies, zero total
distance and zero estimated travel time (it is a total function, so it
never raises). -/
theorem claim_C7_degenerate_route (companies : List Company) (start_location : String)
    (h : ∀ c ∈ companies, c.address = Option.none) :
    (optimize_route companies start_location).companies = [] ∧
    (optimize_route companies start_location).total_distance = 0 ∧
    (optimize_route companies start_location).estimated_travel_time = 0 := by
  cases companies with
  | nil => exact ⟨rfl, rfl, rfl⟩
  | cons first rest =>
    simp only [optimize_route]
    rw [foldl_add_company_no_address _ _ h]
    exact ⟨rfl, rfl, rfl⟩

/-- Witness for C7 at a concrete address-free company list. -/
theorem claim_C7_degenerate_route_witness :
    (∀ c ∈ [companyNoAddress], c.address = Option.none) ∧
    (optimize_route [companyNoAddress] "Milwaukee, WI").companies = [] ∧
    (optimize_route [companyNoAddress] "Milwaukee, WI").total_distance = 0 :=
  ⟨by decide, (claim_C7_degenerate_route [companyNoAddress] "Milwaukee, WI" (by decide)).1,
   (claim_C7_degenerate_route [companyNoAddress] "Milwaukee, WI" (by decide)).2.1⟩

/-- Counterexample to C6 as stated: a caller-supplied *empty* historical
dict is falsy in Python, so the fixed default table is returned instead of
the supplied dict. -/
theorem claim_C6_counterexample :
    suggest_best_outreach_days [] (some []) ≠ ([] : List (String × ℚ)) := by
  simp [suggest_best_outreach_days, historicalTruthy, default_rates]

/-- C6 (amended): `suggest_best_outreach_days` returns the supplied
historical data verbatim whenever it is provided *and nonempty*; when it
is absent or empty it returns the fixed default table
(Mon 0.7, Tue 0.9, Wed 0.8, Thu 0.7, Fri 0.5); in every case the result
is independent of the company list. -/
theorem claim_C6_outreach_days (companies : List Company) (h : List (String × ℚ))
    (hne : h ≠ []) :
    suggest_best_outreach_days companies (some h) = h ∧
    suggest_best_outreach_days companies Option.none = default_rates ∧
    suggest_best_outreach_days companies (some []) = default_rates := by
  refine ⟨?_, rfl, rfl⟩
  cases h with
  | nil => exact absurd rfl hne
  | cons x xs => simp [suggest_best_outreach_days, historicalTruthy]

/-- Witness for C6 at a concrete nonempty historical dict. -/
theorem claim_C6_outreach_days_witness :
    ([("Monday", (1:ℚ))] ≠ ([] : List (String × ℚ))) ∧
    suggest_best_outreach_days [] (some [("Monday", (1:ℚ))]) = [("Monday", (1:ℚ))] :=
  ⟨by simp, (claim_C6_outreach_days [] [("Monday", (1:ℚ))] (by simp)).1⟩

/-- Counterexample to C3 as stated: on the empty input (where "all
companies have addresses" holds vacuously) the returned route has an empty
`optimized_order`, not one of length `len(companies) + 2`, and it neither
begins nor ends with index 0. -/
theorem claim_C3_counterexample :
    (([] : List Company).all (fun c => c.address.isSome) = true) ∧
    (optimize_route [] "Milwaukee, WI").optimized_order.length ≠
      (optimize_route [] "Milwaukee, WI").companies.length + 2 ∧
    (optimize_route [] "Milwaukee, WI").optimized_order.head? ≠ some 0 := by
  refine ⟨rfl, ?_, ?_⟩ <;> decide

lemma foldl_add_company_length (companies : List Company) (r : Route)
    (h : ∀ c ∈ companies, c.address.isSome = true) :
    (companies.foldl (fun r c => r.add_company c) r).companies.length =
      r.companies.length + companies.length := by
  induction companies generalizing r with
  | nil => rfl
  | cons x xs ih =>
    obtain ⟨a, ha⟩ := Option.isSome_iff_exists.mp (h x (List.mem_cons_self x xs))
    have hlen : (Route.add_company r x).companies.length = r.companies.length + 1 := by
      simp [Route.add_company, ha]
    rw [List.foldl_cons, ih _ (fun c hc => h c (List.mem_cons_of_mem x hc)), hlen,
      List.length_cons]
    omega

lemma foldl_min_mem (f : Nat → ℚ) (ys : List Nat) (y : Nat) :
    ys.foldl (fun best z => if f z < f best then z else best) y ∈ y :: ys := by
  induction ys generalizing y with
  | nil => simp
  | cons z zs ih =>
    simp only [List.foldl_cons]
    by_cases h : f z < f y
    · rw [if_pos h]
      rcases List.mem_cons.mp (ih z) with h1 | h1
      · rw [h1]; exact List.mem_cons_of_mem _ (List.mem_cons_self _ _)
      · exact List.mem_cons_of_mem _ (List.mem_cons_of_mem _ h1)
    · rw [if_neg h]
      rcases List.mem_cons.mp (ih y) with h1 | h1
      · rw [h1]; exact List.mem_cons_self _ _
      · exact List.mem_cons_of_mem _ (List.mem_cons_of_mem _ h1)

lemma argminKey_mem (f : Nat → ℚ) (l : List Nat) (x : Nat) (h : argminKey f l = some x) :
    x ∈ l := by
  cases l with
  | nil => exact absurd h (by simp [argminKey])
  | cons y ys =>
    have hx : ys.foldl (fun best z => if f z < f best then z else best) y = x :=
      Option.some_injective _ h
    rw [← hx]
    exact foldl_min_mem f ys y

lemma tspGo_length (distances : List (List ℚ)) :
    ∀ (fuel : Nat) (current : Nat) (unvisited : List Nat),
      unvisited.length = fuel → (tspGo distances fuel current unvisited).length = fuel := by
  intro fuel
  induction fuel with
  | zero => intro current unvisited _; rfl
  | succ k ih =>
    intro current unvisited hlen
    cases hu : unvisited with
    | nil => rw [hu] at hlen; exact absurd hlen (by simp)
    | cons u us =>
      cases hmin : argminKey (fun x => matrixGet distances current x) (u :: us) with
      | none => exact absurd hmin (by simp [argminKey])
      | some closest =>
        have hmem : closest ∈ u :: us := argminKey_mem _ _ _ hmin
        have hlen2 : (u :: us).length = k + 1 := by rw [← hu]; exact hlen
        have herase : ((u :: us).erase closest).length = k := by
          rw [List.length_erase_of_mem hmem]
          omega
        simp only [tspGo, hmin, List.length_cons]
        rw [ih closest ((u :: us).erase closest) herase]

lemma solve_tsp_greedy_spec (distances : List (List ℚ)) (h : 1 ≤ distances.length) :
    (solve_tsp_greedy distances).length = distances.length + 1 ∧
    (solve_tsp_greedy distances).head? = some 0 ∧
    (solve_tsp_greedy distances).getLast? = some 0 := by
  refine ⟨?_, ?_, ?_⟩
  · show ((0 :: tspGo distances (List.range' 1 (distances.length - 1)).length 0
      (List.range' 1 (distances.length - 1))) ++ [0]).length = distances.length + 1
    rw [List.length_append, List.length_cons, tspGo_length distances _ 0 _ rfl,
      List.length_range']
    simp only [List.length_singleton]
    omega
  · simp [solve_tsp_greedy]
  · simp only [solve_tsp_greedy]
    exact List.getLast?_concat _

lemma calculate_distance_matrix_length (companies : List CompanyReference) (start : String) :
    (calculate_distance_matrix companies start).length = companies.length + 1 := by
  simp [calculate_distance_matrix]

/-- C3 (amended): for a *nonempty* company list in which every company has
an address, the optimized order has length `len(companies) + 2` and begins
and ends with index 0; on the empty input the route is the empty route
with an empty order. -/
theorem claim_C3_route_length (companies : List Company) (start_location : String)
    (hne : companies ≠ []) (haddr : ∀ c ∈ companies, c.address.isSome = true) :
    (optimize_route companies start_location).optimized_order.length =
      (optimize_route companies start_location).companies.length + 2 ∧
    (optimize_route companies start_location).optimized_order.head? = some 0 ∧
    (optimize_route companies start_location).optimized_order.getLast? = some 0 := by
  cases companies with
  | nil => exact absurd rfl hne
  | cons first rest =>
    simp only [optimize_route]
    have hfold := foldl_add_company_length (first :: rest)
      { day := match first.location with
               | some loc => if optStrTruthy loc.region then loc.region.getD "" else "Monday"
               | none => "Monday" : Route } haddr
    set route := (first :: rest).foldl (fun r c => r.add_company c)
      { day := match first.location with
               | some loc => if optStrTruthy loc.region then loc.region.getD "" else "Monday"
               | none => "Monday" : Route } with hroute
    have hrlen : route.companies.length = (first :: rest).length := by
      rw [hfold]; simp
    cases hrc : route.companies with
    | nil => rw [hrc] at hrlen; exact absurd hrlen.symm (by simp)
    | cons rc rcs =>
      have hd : 1 ≤ (calculate_distance_matrix route.companies start_location).length := by
        rw [calculate_distance_matrix_length]; omega
      obtain ⟨hl, hh, hg⟩ := solve_tsp_greedy_spec
        (calculate_distance_matrix route.companies start_location) hd
      rw [hrc] at hl hh hg
      refine ⟨?_, ?_, ?_⟩
      · show (solve_tsp_greedy (calculate_distance_matrix (rc :: rcs) start_location)).length =
          (rc :: rcs).length + 2
        rw [hl, calculate_distance_matrix_length]
      · exact hh
      · exact hg

/-- Witness for C3 at a concrete one-company list with an address. -/
theorem claim_C3_route_length_witness :
    ([sampleCompanyA] ≠ []) ∧ (∀ c ∈ [sampleCompanyA], c.address.isSome = true) ∧
    (optimize_route [sampleCompanyA] "Milwaukee, WI").optimized_order.length =
      (optimize_route [sampleCompanyA] "Milwaukee, WI").companies.length + 2 :=
  ⟨by simp, by decide,
   (claim_C3_route_length [sampleCompanyA] "Milwaukee, WI" (by simp) (by decide)).1⟩

lemma assign_fold_eq (companies : List Company) (days : List (String × List Company)) :
    companies.foldl (fun days c =>
      match dayForCompany c with
      | some day => appendToDay days day c
      | Option.none => days) days =
    days.map (fun kv =>
      (kv.1, kv.2 ++ companies.filter (fun c => decide (dayForCompany c = some kv.1)))) := by
  induction companies generalizing days with
  | nil => simp
  | cons c cs ih =>
    rw [List.foldl_cons]
    cases hd : dayForCompany c with
    | none =>
      rw [ih]
      refine List.map_congr_left (fun kv _ => ?_)
      simp [List.filter_cons, hd]
    | some d =>
      rw [ih]
      simp only [appendToDay, List.map_map]
      refine List.map_congr_left (fun kv _ => ?_)
      by_cases hk : kv.1 = d
      · simp [Function.comp, hk, List.filter_cons, hd, List.append_assoc]
      · simp [Function.comp, hk, List.filter_cons, hd, Ne.symm hk]

lemma assign_eq (companies : List Company) :
    assign_companies_to_days companies =
      [("Monday", companies.filter (fun c => decide (dayForCompany c = some "Monday"))),
       ("Tuesday", companies.filter (fun c => decide (dayForCompany c = some "Tuesday"))),
       ("Wednesday", companies.filter (fun c => decide (dayForCompany c = some "Wednesday"))),
       ("Thursday", companies.filter (fun c => decide (dayForCompany c = some "Thursday"))),
       ("Friday", companies.filter (fun c => decide (dayForCompany c = some "Friday")))] := by
  rw [assign_companies_to_days, assign_fold_eq]
  rfl

/-- Exactly one bucket of a key-distinct bucket list contains `c` when
some bucket holds it and every bucket holding it has the key `r0`. -/
lemma bucket_filter_length_one (r0 : String) {cl : List (String × List Company)} {c : Company}
    (hnd : (cl.map Prod.fst).Nodup)
    (hall : ∀ kv ∈ cl, c ∈ kv.2 → kv.1 = r0)
    (hex : ∃ l0, (r0, l0) ∈ cl ∧ c ∈ l0) :
    (cl.filter (fun kv => decide (c ∈ kv.2))).length = 1 := by
  induction cl with
  | nil =>
    obtain ⟨l0, h0, _⟩ := hex
    exact absurd h0 (List.not_mem_nil _)
  | cons kv rest ih =>
    rw [List.map_cons, List.nodup_cons] at hnd
    by_cases hc : c ∈ kv.2
    · rw [List.filter_cons_of_pos (by simpa using hc)]
      have hkf : kv.1 = r0 := hall kv (List.mem_cons_self _ _) hc
      have hrest : rest.filter (fun kv => decide (c ∈ kv.2)) = [] := by
        refine List.filter_eq_nil_iff.mpr (fun kv2 h2 => ?_)
        simp only [decide_eq_true_eq]
        intro hmem
        have hk2 : kv2.1 = r0 := hall kv2 (List.mem_cons_of_mem _ h2) hmem
        exact hnd.1 (by rw [hkf, ← hk2]; exact List.mem_map_of_mem Prod.fst h2)
      rw [hrest]
      rfl
    · rw [List.filter_cons_of_neg (by simpa using hc)]
      refine ih hnd.2 (fun kv2 h2 => hall kv2 (List.mem_cons_of_mem _ h2)) ?_
      obtain ⟨l0, h0, hcl0⟩ := hex
      rcases List.mem_cons.mp h0 with h | h
      · exact absurd (h ▸ hcl0 : c ∈ kv.2) hc
      · exact ⟨l0, h, hcl0⟩

lemma firstMatchingDay_eq (city : String) :
    firstMatchingDay city =
      (if (["Waukesha", "West Milwaukee", "Jackson", "West Bend"] : List String).any
          (regionMatches city) then some "Monday"
       else if (["Kenosha", "Racine"] : List String).any (regionMatches city) then
         some "Tuesday"
       else if (["West Waukesha", "Madison"] : List String).any (regionMatches city) then
         some "Wednesday"
       else Option.none) := by
  simp only [firstMatchingDay, location_schedule, List.findSome?_cons, List.findSome?_nil]
  split_ifs <;> rfl

lemma firstMatchingDay_cases (city d : String) (h : firstMatchingDay city = some d) :
    d = "Monday" ∨ d = "Tuesday" ∨ d = "Wednesday" := by
  rw [firstMatchingDay_eq] at h
  split_ifs at h
  · exact Or.inl (Option.some.inj h).symm
  · exact Or.inr (Or.inl (Option.some.inj h).symm)
  · exact Or.inr (Or.inr (Option.some.inj h).symm)

lemma assign_exactly_one (companies : List Company) (c : Company) (d0 : String)
    (hc : c ∈ companies) (hd : dayForCompany c = some d0)
    (hd0 : d0 = "Monday" ∨ d0 = "Tuesday" ∨ d0 = "Wednesday" ∨ d0 = "Thursday" ∨
      d0 = "Friday") :
    ((assign_companies_to_days companies).filter (fun kv => decide (c ∈ kv.2))).length = 1 := by
  rw [assign_eq]
  refine bucket_filter_length_one d0 (by simp) (fun kv hkv hckv => ?_) ?_
  · simp only [List.mem_cons, List.not_mem_nil, or_false] at hkv
    rcases hkv with h | h | h | h | h <;> subst h <;>
      · have hmem := (List.mem_filter.mp hckv).2
        simp only [decide_eq_true_eq, hd, Option.some.injEq] at hmem
        exact hmem.symm
  · refine ⟨companies.filter (fun x => decide (dayForCompany x = some d0)), ?_,
      List.mem_filter.mpr ⟨hc, by simp [hd]⟩⟩
    rcases hd0 with h | h | h | h | h <;> subst h <;> simp

/-- Counterexample to C4 as stated: a company with no address matches no
day's region names, yet it is skipped entirely — it lands in no bucket at
all (in particular not in Thursday), so it does not appear in exactly one
day's list. -/
theorem claim_C4_counterexample :
    companyNoAddress ∈ [companyNoAddress] ∧
    (assign_companies_to_days [companyNoAddress]).all
      (fun kv => decide (companyNoAddress ∉ kv.2)) = true :=
  ⟨List.mem_singleton_self _, by decide⟩

/-- C4 (amended): every input company that has an address with a nonempty
city appears in exactly one day's list, and when its city matches no
day's configured region names it is placed in the Thursday bucket;
companies without an address or city are skipped and appear in no day's
list. -/
theorem claim_C4_day_assignment (companies : List Company) (c : Company) (a : Address)
    (hc : c ∈ companies) (ha : c.address = some a) (hcity : a.city ≠ "") :
    ((assign_companies_to_days companies).filter (fun kv => decide (c ∈ kv.2))).length = 1 ∧
    (firstMatchingDay (pyLower a.city) = Option.none →
      ∃ l, ("Thursday", l) ∈ assign_companies_to_days companies ∧ c ∈ l) := by
  have htr : strTruthy a.city = true := by
    have h1 : a.city.isEmpty = false := by
      cases hemp : a.city.isEmpty
      · rfl
      · exact absurd ((String.isEmpty_iff _).mp hemp) hcity
    simp [strTruthy, h1]
  have hday : dayForCompany c =
      match firstMatchingDay (pyLower a.city) with
      | some day => some day
      | Option.none => some "Thursday" := by
    simp [dayForCompany, ha, htr]
  cases hfm : firstMatchingDay (pyLower a.city) with
  | none =>
    have hd : dayForCompany c = some "Thursday" := by rw [hday, hfm]
    refine ⟨assign_exactly_one companies c "Thursday" hc hd (by simp), fun _ => ?_⟩
    rw [assign_eq]
    exact ⟨companies.filter (fun x => decide (dayForCompany x = some "Thursday")), by simp,
      List.mem_filter.mpr ⟨hc, by simp [hd]⟩⟩
  | some day =>
    have hd : dayForCompany c = some day := by rw [hday, hfm]
    have hcases := firstMatchingDay_cases _ _ hfm
    refine ⟨assign_exactly_one companies c day hc hd ?_, fun hnone => ?_⟩
    · rcases hcases with h | h | h
      · exact Or.inl h
      · exact Or.inr (Or.inl h)
      · exact Or.inr (Or.inr (Or.inl h))
    · exact absurd hnone (by simp)

/-- Witness for C4 at a concrete company whose city matches a Monday
region. -/
theorem claim_C4_day_assignment_witness :
    sampleCompanyA ∈ [sampleCompanyA] ∧ sampleCompanyA.address.isSome = true ∧
    ((assign_companies_to_days [sampleCompanyA]).filter
      (fun kv => decide (sampleCompanyA ∈ kv.2))).length = 1 :=
  ⟨List.mem_singleton_self _, rfl,
   (claim_C4_day_assignment [sampleCompanyA] sampleCompanyA
     { street := "1 Main St", city := "Milwaukee", state := "WI", zip := "53202" }
     (List.mem_singleton_self _) rfl (by decide)).1⟩

/-- First bucket of the given key in a bucket list. -/
def lookupBucket : List (String × List Company) → String → Option (List Company)
  | [], _ => Option.none
  | kv :: rest, k => if kv.1 = k then some kv.2 else lookupBucket rest k

lemma lookupBucket_addToCluster (cl : List (String × List Company)) (r : String) (c : Company)
    (k : String) :
    lookupBucket (addToCluster cl r c) k =
      if k = r then some ((lookupBucket cl r).getD [] ++ [c]) else lookupBucket cl k := by
  induction cl with
  | nil =>
    by_cases hk : k = r
    · simp [addToCluster, lookupBucket, hk]
    · simp [addToCluster, lookupBucket, hk, Ne.symm hk]
  | cons kv rest ih =>
    simp only [addToCluster]
    by_cases h1 : kv.1 = r
    · rw [if_pos h1]
      by_cases hk : k = r
      · subst hk
        simp [lookupBucket, h1]
      · have h2 : kv.1 ≠ k := by rw [h1]; exact fun hh => hk hh.symm
        simp [lookupBucket, h2, hk]
    · rw [if_neg h1]
      by_cases h2 : kv.1 = k
      · have hkr : k ≠ r := by rw [← h2]; exact h1
        simp [lookupBucket, h2, hkr]
      · simp [lookupBucket, h2, ih, h1]

lemma keys_addToCluster (cl : List (String × List Company)) (r : String) (c : Company) :
    (addToCluster cl r c).map Prod.fst =
      if r ∈ cl.map Prod.fst then cl.map Prod.fst else cl.map Prod.fst ++ [r] := by
  induction cl with
  | nil => simp [addToCluster]
  | cons kv rest ih =>
    simp only [addToCluster]
    by_cases h1 : kv.1 = r
    · rw [if_pos h1]
      simp [h1]
    · rw [if_neg h1]
      simp only [List.map_cons, ih]
      by_cases h2 : r ∈ rest.map Prod.fst
      · simp [h2, Ne.symm h1]
      · simp [h2, Ne.symm h1]

lemma nodup_keys_foldl (pairs : List (Int × Company)) :
    ∀ cl : List (String × List Company), (cl.map Prod.fst).Nodup →
      ((pairs.foldl (fun clusters p => addToCluster clusters (regionOf p.1) p.2) cl).map
        Prod.fst).Nodup := by
  induction pairs with
  | nil => exact fun _ h => h
  | cons p ps ih =>
    intro cl h
    rw [List.foldl_cons]
    refine ih _ ?_
    rw [keys_addToCluster]
    by_cases hmem : regionOf p.1 ∈ cl.map Prod.fst
    · rw [if_pos hmem]; exact h
    · rw [if_neg hmem]
      simp [List.nodup_append, h, hmem]

lemma content_foldl (pairs : List (Int × Company)) :
    ∀ (cl : List (String × List Company)) (k : String),
      (lookupBucket (pairs.foldl (fun clusters p => addToCluster clusters (regionOf p.1) p.2) cl)
        k).getD [] =
      (lookupBucket cl k).getD [] ++
        (pairs.filter (fun p => decide (regionOf p.1 = k))).map Prod.snd := by
  induction pairs with
  | nil => intro cl k; simp
  | cons p ps ih =>
    intro cl k
    rw [List.foldl_cons, ih, lookupBucket_addToCluster]
    by_cases hk : k = regionOf p.1
    · subst hk
      simp [List.filter_cons, List.append_assoc]
    · have hf : decide (regionOf p.1 = k) = false := by
        simp only [decide_eq_false_iff_not]
        exact fun hh => hk hh.symm
      rw [if_neg hk]
      simp [List.filter_cons, hf]

lemma mem_of_lookupBucket (cl : List (String × List Company)) (k : String) (l : List Company)
    (h : lookupBucket cl k = some l) : (k, l) ∈ cl := by
  induction cl with
  | nil => exact absurd h (by simp [lookupBucket])
  | cons kv rest ih =>
    simp only [lookupBucket] at h
    by_cases h1 : kv.1 = k
    · rw [if_pos h1] at h
      have hkv : kv = (k, l) := by
        obtain ⟨k1, l1⟩ := kv
        have h2 : l1 = l := Option.some.inj h
        simp only at h1
        simp [h1, h2]
      rw [hkv] at *
      exact List.mem_cons_self _ _
    · rw [if_neg h1] at h
      exact List.mem_cons_of_mem _ (ih h)

lemma lookupBucket_of_mem (cl : List (String × List Company)) (k : String) (l : List Company)
    (hnd : (cl.map Prod.fst).Nodup) (h : (k, l) ∈ cl) : lookupBucket cl k = some l := by
  induction cl with
  | nil => exact absurd h (List.not_mem_nil _)
  | cons kv rest ih =>
    rw [List.map_cons, List.nodup_cons] at hnd
    rcases List.mem_cons.mp h with h1 | h1
    · rw [← h1]
      simp [lookupBucket]
    · have hkk : kv.1 ≠ k := fun he => hnd.1 (he ▸ List.mem_map_of_mem Prod.fst h1)
      simp only [lookupBucket, if_neg hkk]
      exact ih hnd.2 h1

lemma cluster_eq (companies : List Company) (labels : List Int) :
    cluster_companies_by_region companies labels =
      buildClusters (labels.zip (companies_with_location companies)) := by
  unfold cluster_companies_by_region
  cases h : companies_with_location companies with
  | nil => simp [h, buildClusters]
  | cons a l => simp [h]

lemma bucket_member_source (companies : List Company) (labels : List Int)
    (kv : String × List Company) (c : Company)
    (hkv : kv ∈ cluster_companies_by_region companies labels) (hmem : c ∈ kv.2) :
    ∃ lab, (lab, c) ∈ labels.zip (companies_with_location companies) ∧ regionOf lab = kv.1 := by
  rw [cluster_eq] at hkv
  have hnd := nodup_keys_foldl (labels.zip (companies_with_location companies)) [] (by simp)
  have hlk : lookupBucket (buildClusters (labels.zip (companies_with_location companies)))
      kv.1 = some kv.2 :=
    lookupBucket_of_mem _ _ _ hnd (by simpa using hkv)
  have hcontent := content_foldl (labels.zip (companies_with_location companies)) [] kv.1
  rw [show (labels.zip (companies_with_location companies)).foldl
      (fun clusters p => addToCluster clusters (regionOf p.1) p.2) [] =
      buildClusters (labels.zip (companies_with_location companies)) from rfl, hlk] at hcontent
  simp only [Option.getD_some, lookupBucket, Option.getD_none, List.nil_append] at hcontent
  rw [hcontent] at hmem
  obtain ⟨p, hp, hpc⟩ := List.mem_map.mp hmem
  have hfil := List.mem_filter.mp hp
  refine ⟨p.1, ?_, by simpa using hfil.2⟩
  rw [show (p.1, c) = p from by rw [← hpc]]
  exact hfil.1

/-- C9: `cluster_companies_by_region` excludes every company whose
location is missing or has a zero coordinate from every bucket, and puts
every remaining input company in exactly one bucket.  The DBSCAN labels
are abstract inputs constrained only as sklearn guarantees: one label per
filtered company, equal companies receiving equal labels. -/
theorem claim_C9_cluster_partition (companies : List Company) (labels : List Int)
    (hlen : labels.length = (companies_with_location companies).length)
    (hcoh : ∀ (l1 l2 : Int) (x : Company),
      (l1, x) ∈ labels.zip (companies_with_location companies) →
      (l2, x) ∈ labels.zip (companies_with_location companies) → l1 = l2) :
    (∀ c ∈ companies, hasValidLocation c = false →
      ∀ kv ∈ cluster_companies_by_region companies labels, c ∉ kv.2) ∧
    (∀ c ∈ companies, hasValidLocation c = true →
      ((cluster_companies_by_region companies labels).filter
        (fun kv => decide (c ∈ kv.2))).length = 1) := by
  constructor
  · intro c _ hval kv hkv hmem
    obtain ⟨lab, hzip, _⟩ := bucket_member_source companies labels kv c hkv hmem
    have hwl : c ∈ companies_with_location companies := (List.of_mem_zip hzip).2
    have := (List.mem_filter.mp hwl).2
    rw [hval] at this
    exact absurd this (by simp)
  · intro c hc hval
    have hwl : c ∈ companies_with_location companies := List.mem_filter.mpr ⟨hc, hval⟩
    obtain ⟨i, hi, hgi⟩ := List.mem_iff_getElem.mp hwl
    have hil : i < labels.length := by rw [hlen]; exact hi
    have hizip : i < (labels.zip (companies_with_location companies)).length := by
      rw [List.length_zip, hlen]
      omega
    have hpair : (labels.get ⟨i, hil⟩, c) ∈
        labels.zip (companies_with_location companies) := by
      have hmem2 := List.getElem_mem (l := labels.zip (companies_with_location companies))
        (n := i) (h := hizip)
      rw [List.getElem_zip, hgi] at hmem2
      exact hmem2
    set lab0 := labels.get ⟨i, hil⟩ with hlab0
    refine bucket_filter_length_one (regionOf lab0) ?_ ?_ ?_
    · rw [cluster_eq]
      exact nodup_keys_foldl _ [] (by simp)
    · intro kv hkv hckv
      obtain ⟨lab, hzip, hreg⟩ := bucket_member_source companies labels kv c hkv hckv
      rw [← hreg, hcoh lab lab0 c hzip hpair]
    · have hcontent := content_foldl (labels.zip (companies_with_location companies)) []
        (regionOf lab0)
      simp only [lookupBucket, Option.getD_none, List.nil_append] at hcontent
      have hcmem : c ∈ (lookupBucket
          (buildClusters (labels.zip (companies_with_location companies)))
          (regionOf lab0)).getD [] := by
        rw [show buildClusters (labels.zip (companies_with_location companies)) =
          (labels.zip (companies_with_location companies)).foldl
            (fun clusters p => addToCluster clusters (regionOf p.1) p.2) [] from rfl, hcontent]
        exact List.mem_map.mpr ⟨(lab0, c), List.mem_filter.mpr ⟨hpair, by simp⟩, rfl⟩
      cases hlb : lookupBucket (buildClusters
          (labels.zip (companies_with_location companies))) (regionOf lab0) with
      | none =>
        rw [hlb] at hcmem
        exact absurd hcmem (by simp)
      | some l0 =>
        rw [hlb] at hcmem
        simp only [Option.getD_some] at hcmem
        refine ⟨l0, ?_, hcmem⟩
        rw [cluster_eq]
        exact mem_of_lookupBucket _ _ _ hlb

/-- A company with nonzero coordinates, used to instantiate hypotheses. -/
def companyWithLocation : Company :=
  { id := "g1", name := "GeoCo", location := some { latitude := 43, longitude := -88 } }

/-- Witness for C9 at a concrete two-company list (one located, one not)
with a concrete one-label clustering. -/
theorem claim_C9_cluster_partition_witness :
    ([(0:Int)].length =
      (companies_with_location [companyWithLocation, companyNoAddress]).length) ∧
    ((cluster_companies_by_region [companyWithLocation, companyNoAddress] [0]).filter
      (fun kv => decide (companyWithLocation ∈ kv.2))).length = 1 := by
  have hz : ([(0:Int)]).zip (companies_with_location [companyWithLocation, companyNoAddress]) =
      [((0:Int), companyWithLocation)] := by decide
  refine ⟨by decide, (claim_C9_cluster_partition [companyWithLocation, companyNoAddress] [0]
    (by decide) ?_).2 companyWithLocation (List.mem_cons_self _ _) (by decide)⟩
  intro l1 l2 x h1 h2
  rw [hz] at h1 h2
  have e1 := List.mem_singleton.mp h1
  have e2 := List.mem_singleton.mp h2
  rw [show l1 = (0:Int) from congrArg Prod.fst e1, show l2 = (0:Int) from congrArg Prod.fst e2]

end BusinessLookup
